import Mathlib

/-!
Verification of the read-path controller of the crud repository
(package controller, file with GetListHandler / GetByIDHandler /
GetFieldHandler / buildQueryOptions / getModelByID / getCount /
getAssociationCount).

The Go code is shallowly embedded: the decoded request body and the query
options become plain data types, and each handler becomes a pure function
from the decoded request and the persistence collaborator (passed as
function arguments) to the response it emits together with the ordered
trace of persistence calls it makes.
-/

namespace Crud

/-- The decoded request body (`GetRequestBody` in the Go source): the form
fields limit, offset, order_by, desc, filter_by, filter_value, preload
(repeatable) and total. -/
structure GetRequestBody where
  limit : Int
  offset : Int
  orderBy : String
  descending : Bool
  filterBy : String
  filterValue : String
  preload : List String
  total : Bool
deriving DecidableEq

/-- A query option (`service.QueryOption` values produced by the controller):
`service.WithPage`, `service.OrderBy`, `service.FilterBy` and
`service.Preload`.  `service.Preload(field, options...)` takes nested
options, so the preload variant carries a list of nested options. -/
inductive QueryOption where
  | withPage (limit offset : Int)
  | orderBy (field : String) (descending : Bool)
  | filterBy (field : String) (value : String)
  | preload (path : String) (nested : List QueryOption)

/-- A Go error value: either the package-level sentinel `ErrMissingID` or an
arbitrary error with a message. -/
inductive GoErr where
  | errMissingID
  | mk (msg : String)
deriving DecidableEq

/-- `err.Error()`: the message carried by an error value. -/
def GoErr.message : GoErr → String
  | .errMissingID => "missing id in url"
  | .mk msg => msg

/-- The response codes the controller passes to `ResponseError`. -/
inductive ResponseCode where
  | codeBadRequest
  | codeProcessFailed
deriving DecidableEq

/-- An addendum attached to a success response (`gin.H` entries appended to
`addition` in the Go source): either a total count or a count error. -/
inductive Addendum where
  | total (n : Int)
  | totalError (msg : String)
deriving DecidableEq

/-- The response the handler emits: `ResponseError(c, code, err)` or
`ResponseSuccess(c, data, addition...)`. -/
inductive HandlerResponse (T : Type) where
  | error (code : ResponseCode) (err : GoErr)
  | success (data : T) (addenda : List Addendum)

/-- One call on the persistence collaborator (`service.GetMany`,
`service.GetByID`, `service.Count`, `service.CountAssociations`), recording
the query options the controller passed to it. -/
inductive PersistCall where
  | getMany (options : List QueryOption)
  | getByID (id : String) (options : List QueryOption)
  | count (options : List QueryOption)
  | countAssociations (field : String) (options : List QueryOption)

/-- `buildQueryOptions` from the Go source: append a `WithPage` option when
`Limit > 0`, an `OrderBy` option when `OrderBy` is non-empty, a `FilterBy`
option when both `FilterBy` and `FilterValue` are non-empty, then one
`Preload` option (with no nested options) per entry of `Preload`. -/
def buildQueryOptions (request : GetRequestBody) : List QueryOption :=
  (if request.limit > 0 then
    [QueryOption.withPage request.limit request.offset] else [])
  ++ (if request.orderBy ≠ "" then
    [QueryOption.orderBy request.orderBy request.descending] else [])
  ++ (if request.filterBy ≠ "" ∧ request.filterValue ≠ "" then
    [QueryOption.filterBy request.filterBy request.filterValue] else [])
  ++ request.preload.map (fun field => QueryOption.preload field [])

/-- The option list `getCount` (and `getAssociationCount`) builds for the
count call: only the filter option, and only when both sides are non-empty. -/
def getCountOptions (filterBy filterValue : String) : List QueryOption :=
  if filterBy ≠ "" ∧ filterValue ≠ "" then
    [QueryOption.filterBy filterBy filterValue] else []

/-- `getCount` from the Go source: build the filter-only option list and call
`service.Count` with it.  The collaborator is the argument `count`; the
second component records the call made. -/
def getCount (count : List QueryOption → Except GoErr Int)
    (filterBy filterValue : String) : Except GoErr Int × List PersistCall :=
  let option := getCountOptions filterBy filterValue
  (count option, [PersistCall.count option])

/-- `getAssociationCount` from the Go source: build the filter-only option
list and call `service.CountAssociations` on the model and field. -/
def getAssociationCount {T : Type}
    (countAssoc : T → String → List QueryOption → Except GoErr Int)
    (model : T) (field : String) (filterBy filterValue : String) :
    Except GoErr Int × List PersistCall :=
  let options := getCountOptions filterBy filterValue
  (countAssoc model field options, [PersistCall.countAssociations field options])

/-- `getModelByID` from the Go source: if the path identifier is empty,
return `ErrMissingID` without calling the persistence layer; otherwise call
`service.GetByID`.  `fetchByID` is the persistence collaborator; `id` is the
value of `c.Param(idParam)`. -/
def getModelByID {T : Type}
    (fetchByID : String → List QueryOption → Except GoErr T)
    (id : String) (options : List QueryOption) :
    Except GoErr T × List PersistCall :=
  if id = "" then (Except.error GoErr.errMissingID, [])
  else (fetchByID id options, [PersistCall.getByID id options])

/-- `GetListHandler` from the Go source, after a successful bind of the
request body: build the options, call `service.GetMany`; on failure respond
`ResponseError(c, CodeProcessFailed, err)`; on success, when `Total` is set
call `getCount` and attach a `total` or `totalError` addendum, then respond
`ResponseSuccess(c, dest, addition...)`. -/
def GetListHandler {T : Type}
    (getMany : List QueryOption → Except GoErr (List T))
    (count : List QueryOption → Except GoErr Int)
    (request : GetRequestBody) :
    HandlerResponse (List T) × List PersistCall :=
  let options := buildQueryOptions request
  match getMany options with
  | Except.error err =>
      (HandlerResponse.error ResponseCode.codeProcessFailed err,
        [PersistCall.getMany options])
  | Except.ok dest =>
      if request.total then
        match getCount count request.filterBy request.filterValue with
        | (Except.error err, tr) =>
            (HandlerResponse.success dest [Addendum.totalError err.message],
              PersistCall.getMany options :: tr)
        | (Except.ok total, tr) =>
            (HandlerResponse.success dest [Addendum.total total],
              PersistCall.getMany options :: tr)
      else
        (HandlerResponse.success dest [], [PersistCall.getMany options])

/-- `GetByIDHandler` from the Go source, after a successful bind: build the
options, call `getModelByID`; on failure respond
`ResponseError(c, CodeProcessFailed, err)`; on success respond
`ResponseSuccess(c, dest)` with no addenda. -/
def GetByIDHandler {T : Type}
    (fetchByID : String → List QueryOption → Except GoErr T)
    (id : String) (request : GetRequestBody) :
    HandlerResponse T × List PersistCall :=
  let options := buildQueryOptions request
  match getModelByID fetchByID id options with
  | (Except.error err, tr) =>
      (HandlerResponse.error ResponseCode.codeProcessFailed err, tr)
  | (Except.ok dest, tr) =>
      (HandlerResponse.success dest [], tr)

/-- `GetFieldHandler` from the Go source, after a successful bind, with the
nested field name already resolved by `NameToField` at construction time:
build the user options, call `getModelByID` with the single option
`service.Preload(field, options...)`; on failure respond with
`CodeProcessFailed`; on success extract the field value (`extract` embeds
the reflection lookup, `fieldIsSlice` whether its reflect kind is Slice),
optionally attach an association-count addendum, and respond with the field
value. -/
def GetFieldHandler {T F : Type}
    (fetchByID : String → List QueryOption → Except GoErr T)
    (countAssoc : T → String → List QueryOption → Except GoErr Int)
    (extract : T → F) (fieldIsSlice : Bool)
    (field : String) (id : String) (request : GetRequestBody) :
    HandlerResponse F × List PersistCall :=
  let options := buildQueryOptions request
  match getModelByID fetchByID id [QueryOption.preload field options] with
  | (Except.error err, tr) =>
      (HandlerResponse.error ResponseCode.codeProcessFailed err, tr)
  | (Except.ok model, tr) =>
      let fieldValue := extract model
      if request.total ∧ fieldIsSlice then
        match getAssociationCount countAssoc model field
            request.filterBy request.filterValue with
        | (Except.error err, trc) =>
            (HandlerResponse.success fieldValue [Addendum.totalError err.message],
              tr ++ trc)
        | (Except.ok total, trc) =>
            (HandlerResponse.success fieldValue [Addendum.total total],
              tr ++ trc)
      else
        (HandlerResponse.success fieldValue [], tr)

/-- Projection of a `withPage` option. -/
def pageOf : QueryOption → Option (Int × Int)
  | QueryOption.withPage l o => some (l, o)
  | _ => none

/-- Projection of an `orderBy` option. -/
def orderOf : QueryOption → Option (String × Bool)
  | QueryOption.orderBy f d => some (f, d)
  | _ => none

/-- Projection of a `filterBy` option. -/
def filterOf : QueryOption → Option (String × String)
  | QueryOption.filterBy f v => some (f, v)
  | _ => none

/-- Projection of a `preload` option to its path and nested options. -/
def preloadEntry : QueryOption → Option (String × List QueryOption)
  | QueryOption.preload p n => some (p, n)
  | _ => none

/-- Projection of a `preload` option to its path alone. -/
def preloadPathOf : QueryOption → Option String
  | QueryOption.preload p _ => some p
  | _ => none

/-- Modelled from the spec: the eager-load paths an option list induces in
the persistence layer (`service.Preload` is not under the controller
source).  A `Preload{path, nested}` option loads `path`, and the paths
induced by its nested options are interpreted relative to `path`, joined
with a dot: a nested path `Product` under `Order` loads `Order.Product`. -/
def effectivePreloadPaths : List QueryOption → List String
  | [] => []
  | QueryOption.preload path nested :: rest =>
      path :: ((effectivePreloadPaths nested).map (fun p => path ++ "." ++ p)
        ++ effectivePreloadPaths rest)
  | QueryOption.withPage _ _ :: rest => effectivePreloadPaths rest
  | QueryOption.orderBy _ _ :: rest => effectivePreloadPaths rest
  | QueryOption.filterBy _ _ :: rest => effectivePreloadPaths rest

/-- Modelled from the spec: the contract of `service.GetByID` (not under the
controller source) — when fetching one record options only direct the
preloading of related data, so two option lists with the same preload
entries yield the same fetch result; pagination, order and filter options
are ignored. -/
def IgnoresNonPreloadOptions {T : Type}
    (fetchByID : String → List QueryOption → Except GoErr T) : Prop :=
  ∀ id opts opts', opts.filterMap preloadEntry = opts'.filterMap preloadEntry →
    fetchByID id opts = fetchByID id opts'

/-- The response code a response carries, if it is an error response. -/
def responseCode {T : Type} : HandlerResponse T → Option ResponseCode
  | HandlerResponse.error code _ => some code
  | HandlerResponse.success _ _ => none

/-- The decoded request with every field at its Go zero value: what the
decoder produces for a request with no query parameters. -/
def emptyRequest : GetRequestBody :=
  { limit := 0, offset := 0, orderBy := "", descending := false,
    filterBy := "", filterValue := "", preload := [], total := false }

/-- A request identical to `request` except that the pagination, ordering
and filter parameters are reset to their absent (zero) values. -/
def clearListParams (request : GetRequestBody) : GetRequestBody :=
  { request with
    limit := 0, offset := 0, orderBy := "", descending := false,
    filterBy := "", filterValue := "" }

section Lemmas

/-- A projection that sends every bare preload option to `none` filters the
preload options built from a path list to nothing. -/
lemma filterMap_comp_none {α : Type} (g : QueryOption → Option α)
    (hg : ∀ p, g (QueryOption.preload p []) = none) (ps : List String) :
    List.filterMap (g ∘ fun field => QueryOption.preload field []) ps = [] := by
  induction ps with
  | nil => rfl
  | cons p ps ih => simp [List.filterMap_cons, Function.comp, hg, ih]

lemma filterMap_comp_preloadPathOf (ps : List String) :
    List.filterMap (preloadPathOf ∘ fun field => QueryOption.preload field []) ps
      = ps := by
  induction ps with
  | nil => rfl
  | cons p ps ih => simp [List.filterMap_cons, preloadPathOf, ih, Function.comp]

lemma effectivePreloadPaths_preloads (ps : List String) :
    effectivePreloadPaths (ps.map fun field => QueryOption.preload field [])
      = ps := by
  induction ps with
  | nil => simp [effectivePreloadPaths]
  | cons p ps ih => simp [effectivePreloadPaths, ih]

lemma filterMap_comp_preloadEntry (ps : List String) :
    List.filterMap (preloadEntry ∘ fun field => QueryOption.preload field []) ps
      = ps.map (fun p => (p, ([] : List QueryOption))) := by
  induction ps with
  | nil => rfl
  | cons p ps ih => simp [List.filterMap_cons, preloadEntry, ih, Function.comp]

/-- The preload entries of the built option list are exactly the request's
preload paths, each with no nested options, in order. -/
lemma buildQueryOptions_preloadEntry (r : GetRequestBody) :
    (buildQueryOptions r).filterMap preloadEntry
      = r.preload.map (fun p => (p, ([] : List QueryOption))) := by
  by_cases h1 : r.limit > 0 <;>
  by_cases h2 : r.orderBy ≠ "" <;>
  by_cases h3 : r.filterBy ≠ "" ∧ r.filterValue ≠ "" <;>
    simp [buildQueryOptions, h1, h2, h3, List.filterMap_append,
      List.filterMap_cons, preloadEntry, filterMap_comp_preloadEntry]

/-- The effective eager-load paths of the built option list are exactly the
request's preload paths. -/
lemma effectivePreloadPaths_build (r : GetRequestBody) :
    effectivePreloadPaths (buildQueryOptions r) = r.preload := by
  by_cases h1 : r.limit > 0 <;>
  by_cases h2 : r.orderBy ≠ "" <;>
  by_cases h3 : r.filterBy ≠ "" ∧ r.filterValue ≠ "" <;>
    simp [buildQueryOptions, h1, h2, h3, effectivePreloadPaths,
      effectivePreloadPaths_preloads]

end Lemmas

/-- C8: the Option Builder emits a `Page{limit, offset}` option exactly when
`limit > 0`; for `limit <= 0` no Page option appears in the built
sequence. -/
theorem buildQueryOptions_page_iff_limit_pos (r : GetRequestBody) :
    (buildQueryOptions r).filterMap pageOf
      = if r.limit > 0 then [(r.limit, r.offset)] else [] := by
  by_cases h1 : r.limit > 0 <;>
  by_cases h2 : r.orderBy ≠ "" <;>
  by_cases h3 : r.filterBy ≠ "" ∧ r.filterValue ≠ "" <;>
    simp [buildQueryOptions, h1, h2, h3, List.filterMap_append,
      List.filterMap_cons, pageOf, filterMap_comp_none pageOf (fun p => rfl)]

/-- C7: the Option Builder emits a `FilterBy{filterField, filterValue}`
option exactly when both sides are non-empty; with exactly one side empty
the filter is silently dropped and the build still succeeds (the builder is
total, so nothing is ever reported as an error). -/
theorem buildQueryOptions_filter_both_or_neither (r : GetRequestBody) :
    (buildQueryOptions r).filterMap filterOf
      = if r.filterBy ≠ "" ∧ r.filterValue ≠ "" then
          [(r.filterBy, r.filterValue)] else [] := by
  by_cases h1 : r.limit > 0 <;>
  by_cases h2 : r.orderBy ≠ "" <;>
  by_cases h3 : r.filterBy ≠ "" ∧ r.filterValue ≠ "" <;>
    simp [buildQueryOptions, h1, h2, h3, List.filterMap_append,
      List.filterMap_cons, filterOf, filterMap_comp_none filterOf (fun p => rfl)]

/-- C9: the Option Builder emits exactly one Preload option per entry of the
request's preload paths, and the Preload options appear in input order. -/
theorem buildQueryOptions_preload_order (r : GetRequestBody) :
    (buildQueryOptions r).filterMap preloadPathOf = r.preload := by
  by_cases h1 : r.limit > 0 <;>
  by_cases h2 : r.orderBy ≠ "" <;>
  by_cases h3 : r.filterBy ≠ "" ∧ r.filterValue ≠ "" <;>
    simp [buildQueryOptions, h1, h2, h3, List.filterMap_append,
      List.filterMap_cons, preloadPathOf, filterMap_comp_preloadPathOf]

/-- C1 counterexample: a GetByID request with an empty path identifier is
answered with the `CodeProcessFailed` response code, which is not the
BadRequest code — the claim that the MissingID error is reported with a
BadRequest-class code fails on the code. -/
theorem getByID_emptyID_code_not_badRequest :
    (GetByIDHandler (fun (_ : String) (_ : List QueryOption) =>
        Except.ok (0 : Int)) "" emptyRequest)
      = (HandlerResponse.error ResponseCode.codeProcessFailed GoErr.errMissingID,
          ([] : List PersistCall))
    ∧ ResponseCode.codeProcessFailed ≠ ResponseCode.codeBadRequest :=
  ⟨rfl, by decide⟩

/-- C1 (amended): for every GetByID request whose path identifier is empty,
the handler returns the `ErrMissingID` error without invoking any
persistence fetch (the call trace is empty), and this error is reported
with the `CodeProcessFailed` response code — the same code as fetch
failures, not a BadRequest-class code. -/
theorem getByID_emptyID_missingID {T : Type}
    (fetchByID : String → List QueryOption → Except GoErr T)
    (r : GetRequestBody) :
    GetByIDHandler fetchByID "" r
      = (HandlerResponse.error ResponseCode.codeProcessFailed GoErr.errMissingID,
          []) := by
  simp [GetByIDHandler, getModelByID]

/-- C2: for every List request with `total` set, if the fetch succeeds but
the count fails, the handler emits a success envelope with the fetched data
and a `totalError` addendum carrying the count error's message — the
request is not aborted. -/
theorem list_count_failure_nonfatal {T : Type}
    (getMany : List QueryOption → Except GoErr (List T))
    (count : List QueryOption → Except GoErr Int)
    (r : GetRequestBody) (dest : List T) (e : GoErr)
    (ht : r.total = true)
    (hm : getMany (buildQueryOptions r) = Except.ok dest)
    (hc : count (getCountOptions r.filterBy r.filterValue) = Except.error e) :
    (GetListHandler getMany count r).1
      = HandlerResponse.success dest [Addendum.totalError e.message] := by
  simp [GetListHandler, hm, ht, getCount, hc]

theorem list_count_failure_nonfatal_witness :
    ({ emptyRequest with total := true } : GetRequestBody).total = true
    ∧ (GetListHandler
        (fun (_ : List QueryOption) => Except.ok ([5] : List Nat))
        (fun (_ : List QueryOption) => Except.error (GoErr.mk "boom"))
        { emptyRequest with total := true }).1
      = HandlerResponse.success [5] [Addendum.totalError "boom"] :=
  ⟨rfl, list_count_failure_nonfatal
    (fun (_ : List QueryOption) => Except.ok ([5] : List Nat))
    (fun (_ : List QueryOption) => Except.error (GoErr.mk "boom"))
    { emptyRequest with total := true } [5] (GoErr.mk "boom") rfl rfl rfl⟩

/-- C3: for every List request, if the fetch fails the handler emits an
error envelope with code `CodeProcessFailed` carrying the underlying error,
and the call trace holds only the fetch — no count is attempted, and the
result is the same whatever the count collaborator would answer. -/
theorem list_fetch_failure_fatal {T : Type}
    (getMany : List QueryOption → Except GoErr (List T))
    (count : List QueryOption → Except GoErr Int)
    (r : GetRequestBody) (e : GoErr)
    (hm : getMany (buildQueryOptions r) = Except.error e) :
    GetListHandler getMany count r
      = (HandlerResponse.error ResponseCode.codeProcessFailed e,
          [PersistCall.getMany (buildQueryOptions r)]) := by
  simp [GetListHandler, hm]

theorem list_fetch_failure_fatal_witness :
    (fun (_ : List QueryOption) =>
        (Except.error (GoErr.mk "down") : Except GoErr (List Nat)))
          (buildQueryOptions { emptyRequest with total := true })
      = Except.error (GoErr.mk "down")
    ∧ GetListHandler
        (fun (_ : List QueryOption) =>
          (Except.error (GoErr.mk "down") : Except GoErr (List Nat)))
        (fun (_ : List QueryOption) => Except.ok 42)
        { emptyRequest with total := true }
      = (HandlerResponse.error ResponseCode.codeProcessFailed (GoErr.mk "down"),
          [PersistCall.getMany
            (buildQueryOptions { emptyRequest with total := true })]) :=
  ⟨rfl, list_fetch_failure_fatal
    (fun (_ : List QueryOption) =>
      (Except.error (GoErr.mk "down") : Except GoErr (List Nat)))
    (fun (_ : List QueryOption) => Except.ok 42)
    { emptyRequest with total := true } (GoErr.mk "down") rfl⟩

/-- C4: for every List request with `total` set whose fetch succeeds, the
count call receives exactly the option list built by `getCountOptions`:
the single FilterBy option when both filter sides are non-empty and nothing
otherwise — never a Page, OrderBy or Preload option, whatever the request
contains. -/
theorem list_count_receives_filter_only {T : Type}
    (getMany : List QueryOption → Except GoErr (List T))
    (count : List QueryOption → Except GoErr Int)
    (r : GetRequestBody) (dest : List T)
    (ht : r.total = true)
    (hm : getMany (buildQueryOptions r) = Except.ok dest) :
    (GetListHandler getMany count r).2
      = [PersistCall.getMany (buildQueryOptions r),
          PersistCall.count (getCountOptions r.filterBy r.filterValue)]
    ∧ getCountOptions r.filterBy r.filterValue
      = (if r.filterBy ≠ "" ∧ r.filterValue ≠ "" then
          [QueryOption.filterBy r.filterBy r.filterValue] else []) := by
  refine ⟨?_, rfl⟩
  rcases hc : count (getCountOptions r.filterBy r.filterValue) with e | n <;>
    simp [GetListHandler, hm, ht, getCount, hc]

theorem list_count_receives_filter_only_witness :
    ({ emptyRequest with
        limit := 10, orderBy := "id", descending := true,
        filterBy := "name", filterValue := "John",
        preload := ["Owner"], total := true } : GetRequestBody).total = true
    ∧ ((GetListHandler
        (fun (_ : List QueryOption) => Except.ok ([3] : List Nat))
        (fun (_ : List QueryOption) => Except.ok 42)
        { emptyRequest with
          limit := 10, orderBy := "id", descending := true,
          filterBy := "name", filterValue := "John",
          preload := ["Owner"], total := true }).2
      = [PersistCall.getMany (buildQueryOptions
            { emptyRequest with
              limit := 10, orderBy := "id", descending := true,
              filterBy := "name", filterValue := "John",
              preload := ["Owner"], total := true }),
          PersistCall.count (getCountOptions "name" "John")]
    ∧ getCountOptions "name" "John"
      = (if ("name" : String) ≠ "" ∧ ("John" : String) ≠ "" then
          [QueryOption.filterBy "name" "John"] else [])) :=
  ⟨rfl, list_count_receives_filter_only
    (fun (_ : List QueryOption) => Except.ok ([3] : List Nat))
    (fun (_ : List QueryOption) => Except.ok 42)
    { emptyRequest with
      limit := 10, orderBy := "id", descending := true,
      filterBy := "name", filterValue := "John",
      preload := ["Owner"], total := true } [3] rfl rfl⟩

/-- C10: for every GetByID request with a non-empty identifier whose fetch
succeeds, the handler emits a success envelope carrying only the fetched
record and no addenda, and the call trace holds only the fetch — even when
the request sets `total`, no count is invoked and no `total` or
`totalError` addendum is attached. -/
theorem getByID_success_no_addenda {T : Type}
    (fetchByID : String → List QueryOption → Except GoErr T)
    (id : String) (r : GetRequestBody) (dest : T)
    (hid : id ≠ "")
    (hf : fetchByID id (buildQueryOptions r) = Except.ok dest) :
    GetByIDHandler fetchByID id r
      = (HandlerResponse.success dest [],
          [PersistCall.getByID id (buildQueryOptions r)]) := by
  simp [GetByIDHandler, getModelByID, hid, hf]

theorem getByID_success_no_addenda_witness :
    ("3" : String) ≠ ""
    ∧ GetByIDHandler
        (fun (_ : String) (_ : List QueryOption) => Except.ok (7 : Int))
        "3" { emptyRequest with total := true }
      = (HandlerResponse.success (7 : Int) [],
          [PersistCall.getByID "3"
            (buildQueryOptions { emptyRequest with total := true })]) :=
  ⟨by decide, getByID_success_no_addenda
    (fun (_ : String) (_ : List QueryOption) => Except.ok (7 : Int))
    "3" { emptyRequest with total := true } 7 (by decide) rfl⟩

/-- C5: for every GetNestedField request with a non-empty identifier, the
persistence fetch is the first call in the trace and receives the single
option `Preload(field, userOptions)` — all user options are layered inside
one forced Preload of the resolved nested field — and the effective
eager-load paths of that option are the field itself plus each user preload
path prefixed with the field and a dot: a user path `Product` under nested
field `Order` loads `Order.Product`, not `Order` and `Product`
independently. -/
theorem getField_preload_layering {T F : Type}
    (fetchByID : String → List QueryOption → Except GoErr T)
    (countAssoc : T → String → List QueryOption → Except GoErr Int)
    (extract : T → F) (fieldIsSlice : Bool)
    (field id : String) (r : GetRequestBody)
    (hid : id ≠ "") :
    ((GetFieldHandler fetchByID countAssoc extract fieldIsSlice
        field id r).2).head?
      = some (PersistCall.getByID id
          [QueryOption.preload field (buildQueryOptions r)])
    ∧ effectivePreloadPaths [QueryOption.preload field (buildQueryOptions r)]
      = field :: r.preload.map (fun p => field ++ "." ++ p) := by
  constructor
  · rcases hq : fetchByID id [QueryOption.preload field (buildQueryOptions r)]
      with e | model
    · simp [GetFieldHandler, getModelByID, hid, hq]
    · rcases hca : countAssoc model field
        (getCountOptions r.filterBy r.filterValue) with e2 | n <;>
        simp [GetFieldHandler, getModelByID, hid, hq, getAssociationCount,
          hca] <;>
        split <;> rfl
  · simp [effectivePreloadPaths, effectivePreloadPaths_build]

theorem getField_preload_layering_witness :
    ("1" : String) ≠ ""
    ∧ (((GetFieldHandler
          (fun (_ : String) (_ : List QueryOption) => Except.ok (0 : Int))
          (fun (_ : Int) (_ : String) (_ : List QueryOption) => Except.ok 0)
          (fun m => m) false "Order" "1"
          { emptyRequest with preload := ["Product"] }).2).head?
        = some (PersistCall.getByID "1"
            [QueryOption.preload "Order"
              (buildQueryOptions { emptyRequest with preload := ["Product"] })])
      ∧ effectivePreloadPaths
          [QueryOption.preload "Order"
            (buildQueryOptions { emptyRequest with preload := ["Product"] })]
        = "Order" :: ["Product"].map (fun p => "Order" ++ "." ++ p))
    ∧ "Order" :: ["Product"].map (fun p => "Order" ++ "." ++ p)
      = ["Order", "Order.Product"] :=
  ⟨by decide,
    getField_preload_layering
      (fun (_ : String) (_ : List QueryOption) => Except.ok (0 : Int))
      (fun (_ : Int) (_ : String) (_ : List QueryOption) => Except.ok 0)
      (fun m => m) false "Order" "1"
      { emptyRequest with preload := ["Product"] } (by decide),
    rfl⟩

/-- C6: for every GetByID request, under the spec's contract that the
single-record fetch uses only the preload entries of its option list, the
response is unchanged when the pagination, ordering and filter parameters
are reset to absent — those options have no effect — and the response is
never a BadRequest-coded rejection. -/
theorem getByID_ignores_page_order_filter {T : Type}
    (fetchByID : String → List QueryOption → Except GoErr T)
    (h : IgnoresNonPreloadOptions fetchByID)
    (id : String) (r : GetRequestBody) :
    (GetByIDHandler fetchByID id r).1
      = (GetByIDHandler fetchByID id (clearListParams r)).1
    ∧ responseCode (GetByIDHandler fetchByID id r).1
      ≠ some ResponseCode.codeBadRequest := by
  have hpe : (buildQueryOptions r).filterMap preloadEntry
      = (buildQueryOptions (clearListParams r)).filterMap preloadEntry := by
    rw [buildQueryOptions_preloadEntry, buildQueryOptions_preloadEntry]
    simp [clearListParams]
  have hfe := h id _ _ hpe
  constructor
  · by_cases hid : id = ""
    · simp [GetByIDHandler, getModelByID, hid]
    · rcases hq : fetchByID id (buildQueryOptions r) with e | dest
      · have hq2 : fetchByID id (buildQueryOptions (clearListParams r))
            = Except.error e := by rw [← hfe]; exact hq
        simp [GetByIDHandler, getModelByID, hid, hq, hq2]
      · have hq2 : fetchByID id (buildQueryOptions (clearListParams r))
            = Except.ok dest := by rw [← hfe]; exact hq
        simp [GetByIDHandler, getModelByID, hid, hq, hq2]
  · by_cases hid : id = ""
    · simp [GetByIDHandler, getModelByID, hid, responseCode]
    · rcases hq : fetchByID id (buildQueryOptions r) with e | dest <;>
        simp [GetByIDHandler, getModelByID, hid, hq, responseCode]

theorem getByID_ignores_page_order_filter_witness :
    IgnoresNonPreloadOptions
      (fun (_ : String) (_ : List QueryOption) => Except.ok (0 : Int))
    ∧ ((GetByIDHandler
          (fun (_ : String) (_ : List QueryOption) => Except.ok (0 : Int))
          "7" { emptyRequest with
            limit := 5, offset := 2, orderBy := "id", descending := true,
            filterBy := "name", filterValue := "John" }).1
        = (GetByIDHandler
            (fun (_ : String) (_ : List QueryOption) => Except.ok (0 : Int))
            "7" (clearListParams { emptyRequest with
              limit := 5, offset := 2, orderBy := "id", descending := true,
              filterBy := "name", filterValue := "John" })).1
      ∧ responseCode (GetByIDHandler
          (fun (_ : String) (_ : List QueryOption) => Except.ok (0 : Int))
          "7" { emptyRequest with
            limit := 5, offset := 2, orderBy := "id", descending := true,
            filterBy := "name", filterValue := "John" }).1
        ≠ some ResponseCode.codeBadRequest) :=
  ⟨fun _ _ _ _ => rfl,
    getByID_ignores_page_order_filter
      (fun (_ : String) (_ : List QueryOption) => Except.ok (0 : Int))
      (fun _ _ _ _ => rfl) "7"
      { emptyRequest with
        limit := 5, offset := 2, orderBy := "id", descending := true,
        filterBy := "name", filterValue := "John" }⟩

end Crud
